import Mathlib

/-!
Shallow embedding of src/backend/server.py (Estofados Premium Outlet API).

Conventions of the embedding:
* MongoDB collections are Lean lists in insertion order; `find_one` is the
  first match, `insert_one` appends, `replace_one` replaces the first match
  (inserting at the end when `upsert` is set and nothing matches).
* Python floats (prices, totals) are modelled as rationals; Python ints
  (quantities, which pydantic does not bound) as integers.
* Timestamps (`datetime.now`) and fresh uuids are nondeterministic inputs
  supplied by the environment, so they are explicit parameters.
* `HTTPException(status_code, detail)` becomes an `HTTPError` value returned
  through `Except`.
-/

/-- Error raised by the handlers via HTTPException: a status code and detail. -/
structure HTTPError where
  status : Nat
  detail : String
deriving DecidableEq, Repr

/-- User as returned by the API (the `User` pydantic model: no password). -/
structure User where
  id : String
  name : String
  email : String
  phone : String
  created_at : Nat
  is_admin : Bool
deriving DecidableEq, Repr

/-- User document as stored in `db.users`: the User fields plus the bcrypt
password hash (server.py line 169 stores `{**user.dict(), "password": hash}`). -/
structure StoredUser where
  id : String
  name : String
  email : String
  phone : String
  created_at : Nat
  is_admin : Bool
  password : String
deriving DecidableEq, Repr

/-- The `UserCreate` request model. -/
structure UserCreate where
  name : String
  email : String
  password : String
  phone : String
deriving DecidableEq, Repr

/-- The `Category` model. -/
structure Category where
  id : String
  name : String
  slug : String
  description : String
  image_url : String
  created_at : Nat
deriving DecidableEq, Repr

/-- The `Product` model. `specifications : Dict[str, Any]` is modelled as an
association list with scalar (string) values; this is inessential to every
claim. -/
structure Product where
  id : String
  name : String
  description : String
  price : ℚ
  category_id : String
  category_name : String
  image_url : String
  images : List String
  specifications : List (String × String)
  in_stock : Bool
  created_at : Nat
deriving DecidableEq, Repr

/-- The `ProductCreate` request model (no id, no category_name, no created_at). -/
structure ProductCreate where
  name : String
  description : String
  price : ℚ
  category_id : String
  image_url : String
  images : List String
  specifications : List (String × String)
  in_stock : Bool
deriving DecidableEq, Repr

/-- The `CartItem` embedded model. -/
structure CartItem where
  product_id : String
  product_name : String
  product_image : String
  price : ℚ
  quantity : ℤ
deriving DecidableEq, Repr

/-- The `Cart` model. -/
structure Cart where
  id : String
  user_id : String
  items : List CartItem
  total : ℚ
  updated_at : Nat
deriving DecidableEq, Repr

/-- The database: the collections touched by the embedded handlers. -/
structure DB where
  users : List StoredUser
  categories : List Category
  products : List Product
  carts : List Cart
deriving DecidableEq, Repr

/-- Mongo `find_one(filter)`: the first document matching the filter. -/
def findOne {α : Type} (coll : List α) (p : α → Bool) : Option α :=
  coll.find? p

/-- Mongo `insert_one(doc)`: append in insertion order. -/
def insertOne {α : Type} (coll : List α) (doc : α) : List α :=
  coll ++ [doc]

/-- Mongo `replace_one(filter, doc, upsert)`: replace the first matching
document; when nothing matches, insert `doc` iff `upsert` is set. -/
def replaceOne {α : Type} (coll : List α) (p : α → Bool) (doc : α)
    (upsert : Bool) : List α :=
  match coll with
  | [] => if upsert then [doc] else []
  | x :: rest =>
    if p x then doc :: rest else x :: replaceOne rest p doc upsert

/-- Embeds `cart.total = sum(item.price * item.quantity for item in cart.items)`
(server.py lines 276 and 290). -/
def computeTotal (items : List CartItem) : ℚ :=
  (items.map (fun it => it.price * (it.quantity : ℚ))).sum

/-- The merge loop of `add_to_cart` (server.py lines 265-274): scan for the
first item with the same product_id; increment its quantity in place if found,
otherwise append the new snapshot item at the end. -/
def mergeItem (items : List CartItem) (ci : CartItem) : List CartItem :=
  match items with
  | [] => [ci]
  | it :: rest =>
    if it.product_id == ci.product_id then
      { it with quantity := it.quantity + ci.quantity } :: rest
    else
      it :: mergeItem rest ci

/-- Handler `register` (server.py lines 159-175). `freshId` is the uuid4 assigned to
the new user, `hash` the salted bcrypt hash produced by `get_password_hash`,
`now` the creation timestamp; all three come from the environment. The
returned pair is the new database and the `user` value of the 200 response. -/
def register (db : DB) (rd : UserCreate) (freshId : String) (hash : String)
    (now : Nat) : Except HTTPError (DB × User) :=
  match findOne db.users (fun u => u.email == rd.email) with
  | some _ => .error ⟨400, "Email already registered"⟩
  | none =>
    let user : User := ⟨freshId, rd.name, rd.email, rd.phone, now, false⟩
    let stored : StoredUser :=
      ⟨freshId, rd.name, rd.email, rd.phone, now, false, hash⟩
    .ok ({ db with users := insertOne db.users stored }, user)

/-- Handler `create_product` (server.py lines 220-232): admin-only; 400 when the
category does not resolve; otherwise stamps `category_name` from the resolved
category and inserts the product. -/
def create_product (db : DB) (current_user : User) (pd : ProductCreate)
    (freshId : String) (now : Nat) : Except HTTPError (DB × Product) :=
  if !current_user.is_admin then .error ⟨403, "Not authorized"⟩
  else
    match findOne db.categories (fun c => c.id == pd.category_id) with
    | none => .error ⟨400, "Category not found"⟩
    | some category =>
      let product : Product :=
        ⟨freshId, pd.name, pd.description, pd.price, pd.category_id,
          category.name, pd.image_url, pd.images, pd.specifications,
          pd.in_stock, now⟩
      .ok ({ db with products := insertOne db.products product }, product)

/-- Handler `get_cart` (server.py lines 235-243): return the user's cart, creating a
present-empty one (total 0, no items) when absent. -/
def get_cart (db : DB) (userId : String) (freshId : String) (now : Nat) :
    DB × Cart :=
  match findOne db.carts (fun c => c.user_id == userId) with
  | none =>
    let cart : Cart := ⟨freshId, userId, [], 0, now⟩
    ({ db with carts := insertOne db.carts cart }, cart)
  | some cart => (db, cart)

/-- Handler `add_to_cart` (server.py lines 245-280): 404 when the product does not
resolve; otherwise load the cart (or build a fresh in-memory one), snapshot
the product into a CartItem with the requested quantity, merge, recompute the
total, stamp the timestamp, and persist with `replace_one(..., upsert=True)`. -/
def add_to_cart (db : DB) (userId : String) (productId : String) (qty : ℤ)
    (freshId : String) (now : Nat) : Except HTTPError (DB × Cart) :=
  match findOne db.products (fun p => p.id == productId) with
  | none => .error ⟨404, "Product not found"⟩
  | some product =>
    let cart0 : Cart :=
      match findOne db.carts (fun c => c.user_id == userId) with
      | none => ⟨freshId, userId, [], 0, now⟩
      | some c => c
    let cart_item : CartItem :=
      ⟨product.id, product.name, product.image_url, product.price, qty⟩
    let newItems := mergeItem cart0.items cart_item
    let cart : Cart :=
      { cart0 with
          items := newItems
          total := computeTotal newItems
          updated_at := now }
    .ok ({ db with
            carts := replaceOne db.carts (fun c => c.user_id == userId)
              cart true },
          cart)

/-- Handler `remove_from_cart` (server.py lines 282-294): 404 when the user has no
cart; otherwise drop every item with the given product_id, recompute the
total, stamp the timestamp, and persist with `replace_one` (no upsert). -/
def remove_from_cart (db : DB) (userId : String) (productId : String)
    (now : Nat) : Except HTTPError (DB × Cart) :=
  match findOne db.carts (fun c => c.user_id == userId) with
  | none => .error ⟨404, "Cart not found"⟩
  | some c =>
    let newItems := c.items.filter (fun it => it.product_id != productId)
    let cart : Cart :=
      { c with
          items := newItems
          total := computeTotal newItems
          updated_at := now }
    .ok ({ db with
            carts := replaceOne db.carts (fun c => c.user_id == userId)
              cart false },
          cart)

/-- A bearer token as seen by `jwt.decode`: whether decoding raises
`PyJWTError` for each of the three token-level reasons (malformed payload,
invalid signature, expired `exp` claim), and the `sub` claim carried when
decoding succeeds. -/
structure Token where
  malformed : Bool
  sig_valid : Bool
  expired : Bool
  sub : Option String
deriving DecidableEq, Repr

/-- Embeds `jwt.decode(token, SECRET_KEY, ...)`: raises (returns `none`) on a
malformed token, a bad signature, or an expired token; otherwise yields the
payload's `sub` claim. -/
def jwtDecode (tok : Token) : Option (Option String) :=
  if tok.malformed || !tok.sig_valid || tok.expired then none
  else some tok.sub

/-- Dependency `get_current_user` (server.py lines 144-156): 401 with detail
"Invalid authentication credentials" when decoding fails or the payload has no
sub; 401 with detail "User not found" when the subject id is not in
`db.users`. -/
def get_current_user (db : DB) (tok : Token) : Except HTTPError User :=
  match jwtDecode tok with
  | none => .error ⟨401, "Invalid authentication credentials"⟩
  | some payloadSub =>
    match payloadSub with
    | none => .error ⟨401, "Invalid authentication credentials"⟩
    | some user_id =>
      match findOne db.users (fun u => u.id == user_id) with
      | none => .error ⟨401, "User not found"⟩
      | some u => .ok ⟨u.id, u.name, u.email, u.phone, u.created_at, u.is_admin⟩

/-- Modelled from the spec: no endpoint in src/ updates a Category
("immutable in scope"), yet the snapshot property speaks of "later changes to
the Category". This models a direct datastore rename of one category, leaving
every other collection untouched. -/
def renameCategory (db : DB) (catId : String) (newName : String) : DB :=
  { db with
      categories := db.categories.map
        (fun c => if c.id == catId then { c with name := newName } else c) }

/-! Helper lemmas about the collection operations and the merge loop. -/

theorem find?_eq_none_append {α : Type} (l : List α) (p : α → Bool) (doc : α)
    (h : l.find? p = none) (hd : p doc = true) :
    (l ++ [doc]).find? p = some doc := by
  induction l with
  | nil => simp [List.find?, hd]
  | cons x rest ih =>
    simp only [List.find?] at h ⊢
    cases hx : p x with
    | true => simp [hx] at h
    | false =>
      simp only [hx] at h ⊢
      exact ih h

theorem replaceOne_of_none {α : Type} (coll : List α) (p : α → Bool) (doc : α)
    (h : coll.find? p = none) :
    replaceOne coll p doc true = coll ++ [doc] := by
  induction coll with
  | nil => simp [replaceOne]
  | cons x rest ih =>
    simp only [List.find?] at h
    cases hx : p x with
    | true => simp [hx] at h
    | false =>
      simp only [hx] at h
      simp [replaceOne, hx, ih h]

theorem replaceOne_of_some {α : Type} (coll : List α) (p : α → Bool)
    (doc c : α) (ups : Bool) (h : coll.find? p = some c) :
    ∃ pre post, coll = pre ++ c :: post ∧ (∀ x ∈ pre, p x = false) ∧
      p c = true ∧ replaceOne coll p doc ups = pre ++ doc :: post := by
  induction coll with
  | nil => simp [List.find?] at h
  | cons x rest ih =>
    simp only [List.find?] at h
    cases hx : p x with
    | true =>
      simp only [hx] at h
      have hxc : x = c := Option.some.inj h
      subst hxc
      refine ⟨[], rest, rfl, ?_, hx, ?_⟩
      · intro y hy; simp at hy
      · simp [replaceOne, hx]
    | false =>
      simp only [hx] at h
      obtain ⟨pre, post, hc, hpre, hpc, hrep⟩ := ih h
      refine ⟨x :: pre, post, by simp [hc], ?_, hpc, ?_⟩
      · intro y hy
        rcases List.mem_cons.mp hy with rfl | hy
        · exact hx
        · exact hpre y hy
      · simp [replaceOne, hx, hrep]

theorem mem_replaceOne {α : Type} (coll : List α) (p : α → Bool) (doc x : α)
    (ups : Bool) (hx : x ∈ replaceOne coll p doc ups) :
    x ∈ coll ∨ x = doc := by
  induction coll with
  | nil =>
    cases ups with
    | true => simp [replaceOne] at hx; right; exact hx
    | false => simp [replaceOne] at hx
  | cons y rest ih =>
    simp only [replaceOne] at hx
    cases hy : p y with
    | true =>
      simp only [hy, if_pos] at hx
      rcases List.mem_cons.mp hx with rfl | hx
      · right; rfl
      · left; exact List.mem_cons_of_mem _ hx
    | false =>
      simp only [hy] at hx
      rcases List.mem_cons.mp hx with rfl | hx
      · left; exact List.mem_cons_self _ _
      · rcases ih hx with h | h
        · left; exact List.mem_cons_of_mem _ h
        · right; exact h

theorem mergeItem_of_absent (items : List CartItem) (ci : CartItem)
    (h : ∀ it ∈ items, it.product_id ≠ ci.product_id) :
    mergeItem items ci = items ++ [ci] := by
  induction items with
  | nil => simp [mergeItem]
  | cons it rest ih =>
    have hne : (it.product_id == ci.product_id) = false := by
      simpa using h it (List.mem_cons_self _ _)
    simp only [mergeItem, hne, Bool.false_eq_true, if_false, List.cons_append,
      List.cons.injEq, true_and]
    exact ih fun x hx => h x (List.mem_cons_of_mem _ hx)

theorem mergeItem_of_present (pre post : List CartItem) (it ci : CartItem)
    (hpre : ∀ x ∈ pre, x.product_id ≠ ci.product_id)
    (hit : it.product_id = ci.product_id) :
    mergeItem (pre ++ it :: post) ci =
      pre ++ { it with quantity := it.quantity + ci.quantity } :: post := by
  induction pre with
  | nil => simp [mergeItem, hit]
  | cons x rest ih =>
    have hne : (x.product_id == ci.product_id) = false := by
      simpa using hpre x (List.mem_cons_self _ _)
    simp only [List.cons_append, mergeItem, hne, Bool.false_eq_true, if_false,
      List.cons.injEq, true_and]
    exact ih fun y hy => hpre y (List.mem_cons_of_mem _ hy)

/-- Executing `add_to_cart` when the user has no cart: the fresh in-memory
cart gets the single snapshot item and is appended by the upsert. -/
theorem add_to_cart_fresh (db : DB) (u pid fid : String) (now : Nat) (q : ℤ)
    (prod : Product)
    (hp : findOne db.products (fun p => p.id == pid) = some prod)
    (hc : findOne db.carts (fun c => c.user_id == u) = none) :
    add_to_cart db u pid q fid now =
      .ok ({ db with carts := db.carts ++
              [⟨fid, u, [⟨prod.id, prod.name, prod.image_url, prod.price, q⟩],
                prod.price * (q : ℚ), now⟩] },
            ⟨fid, u, [⟨prod.id, prod.name, prod.image_url, prod.price, q⟩],
              prod.price * (q : ℚ), now⟩) := by
  have hrep := replaceOne_of_none db.carts (fun c => c.user_id == u)
    (⟨fid, u, [⟨prod.id, prod.name, prod.image_url, prod.price, q⟩],
      prod.price * (q : ℚ), now⟩ : Cart) hc
  simp only [add_to_cart, hp, hc, mergeItem, computeTotal, List.map_cons,
    List.map_nil, List.sum_cons, List.sum_nil, add_zero] at hrep ⊢
  rw [hrep]

/-- Executing `add_to_cart` when the user's cart already holds an item for the
product: only that item's quantity grows; everything else about the items is
untouched, and the persisted cart is the returned cart. -/
theorem add_to_cart_merge (db : DB) (u pid fid : String) (now : Nat) (q : ℤ)
    (prod : Product) (c : Cart) (pre post : List CartItem) (it : CartItem)
    (hp : findOne db.products (fun p => p.id == pid) = some prod)
    (hc : findOne db.carts (fun c0 => c0.user_id == u) = some c)
    (hitems : c.items = pre ++ it :: post)
    (hpre : ∀ x ∈ pre, x.product_id ≠ prod.id)
    (hit : it.product_id = prod.id) :
    add_to_cart db u pid q fid now =
      (let newItems := pre ++ { it with quantity := it.quantity + q } :: post
       let cart : Cart :=
         { c with items := newItems, total := computeTotal newItems,
                  updated_at := now }
       .ok ({ db with carts := replaceOne db.carts
                                 (fun c0 => c0.user_id == u) cart true },
            cart)) := by
  have hmerge := mergeItem_of_present pre post it
    (⟨prod.id, prod.name, prod.image_url, prod.price, q⟩ : CartItem) hpre hit
  simp only [add_to_cart, hp, hc, hitems, hmerge]

/-- A small concrete database used to instantiate theorems with hypotheses:
one category, one product of price 100 in it, no users, no carts. -/
def catSofas : Category := ⟨"cat1", "Sofas", "sofas", "d", "img", 0⟩

/-- Concrete product for witnesses: id "p1", price 100, in category "cat1". -/
def prodSofa : Product :=
  ⟨"p1", "Sofa Booth", "classic booth", 100, "cat1", "Sofas", "sofa.jpg",
    [], [], true, 0⟩

/-- Concrete witness database: the product above, empty users and carts. -/
def dbSeed : DB := ⟨[], [catSofas], [prodSofa], []⟩

/-- Claim C1: for a user with no cart and a product in the catalog,
`add_item(u, p, 2)` then `add_item(u, p, 3)` yields exactly one CartItem for
p with quantity 5 and total 5 × the snapshotted price; and in general, when
an item with the same product_id already exists, `add_item` increments its
quantity by the requested amount rather than overwriting it. -/
theorem add_item_accumulates_quantity
    (db : DB) (u pid fid1 fid2 : String) (now1 now2 : Nat) (prod : Product)
    (hp : findOne db.products (fun p => p.id == pid) = some prod)
    (hc : findOne db.carts (fun c => c.user_id == u) = none) :
    (∃ db1 c1 db2 c2,
      add_to_cart db u pid 2 fid1 now1 = .ok (db1, c1) ∧
      add_to_cart db1 u pid 3 fid2 now2 = .ok (db2, c2) ∧
      c2.items = [⟨pid, prod.name, prod.image_url, prod.price, 5⟩] ∧
      c2.total = 5 * prod.price) ∧
    (∀ (dbx : DB) (ux pidx fidx : String) (nowx : Nat) (qx : ℤ)
       (prodx : Product) (cx : Cart) (prex postx : List CartItem)
       (itx : CartItem),
      findOne dbx.products (fun p => p.id == pidx) = some prodx →
      findOne dbx.carts (fun c0 => c0.user_id == ux) = some cx →
      cx.items = prex ++ itx :: postx →
      (∀ x ∈ prex, x.product_id ≠ prodx.id) →
      itx.product_id = prodx.id →
      ∃ dbr cr, add_to_cart dbx ux pidx qx fidx nowx = .ok (dbr, cr) ∧
        cr.items =
          prex ++ { itx with quantity := itx.quantity + qx } :: postx) := by
  have hpid : prod.id = pid := by
    have := List.find?_some hp
    simpa using this
  constructor
  · have h1 := add_to_cart_fresh db u pid fid1 now1 2 prod hp hc
    have hc1 : findOne (db.carts ++
        [(⟨fid1, u, [⟨prod.id, prod.name, prod.image_url, prod.price, 2⟩],
          prod.price * ((2 : ℤ) : ℚ), now1⟩ : Cart)])
        (fun c => c.user_id == u) =
        some (⟨fid1, u, [⟨prod.id, prod.name, prod.image_url, prod.price, 2⟩],
          prod.price * ((2 : ℤ) : ℚ), now1⟩ : Cart) :=
      find?_eq_none_append db.carts (fun c => c.user_id == u) _ hc (by simp)
    have h2 := add_to_cart_merge
      ({ db with carts := db.carts ++
        [(⟨fid1, u, [⟨prod.id, prod.name, prod.image_url, prod.price, 2⟩],
          prod.price * ((2 : ℤ) : ℚ), now1⟩ : Cart)] })
      u pid fid2 now2 3 prod
      (⟨fid1, u, [⟨prod.id, prod.name, prod.image_url, prod.price, 2⟩],
        prod.price * ((2 : ℤ) : ℚ), now1⟩ : Cart)
      [] [] (⟨prod.id, prod.name, prod.image_url, prod.price, 2⟩ : CartItem)
      hp hc1 rfl (by simp) rfl
    refine ⟨_, _, _, _, h1, h2, ?_, ?_⟩
    · simp [hpid]
    · simp [computeTotal]
      ring
  · intro dbx ux pidx fidx nowx qx prodx cx prex postx itx hpx hcx hix hprex hitx
    exact ⟨_, _, add_to_cart_merge dbx ux pidx fidx nowx qx prodx cx prex postx
      itx hpx hcx hix hprex hitx, rfl⟩

/-- Witness for C1 at the concrete seed database. -/
theorem add_item_accumulates_quantity_witness :
    ∃ db1 c1 db2 c2,
      add_to_cart dbSeed "u" "p1" 2 "f1" 1 = .ok (db1, c1) ∧
      add_to_cart db1 "u" "p1" 3 "f2" 2 = .ok (db2, c2) ∧
      c2.items =
        [⟨"p1", prodSofa.name, prodSofa.image_url, prodSofa.price, 5⟩] ∧
      c2.total = 5 * prodSofa.price :=
  (add_item_accumulates_quantity dbSeed "u" "p1" "f1" "f2" 1 2 prodSofa
    (by decide) (by decide)).1

/-- Claim C9: when `add_item` merges into an existing CartItem, every field of
that item other than quantity (product_name, product_image, price) is left
unchanged, the other items are untouched, the total is recomputed from those
snapshotted items only, and any catalog state resolving the same product id —
whatever its current price/name/image — yields the same items. -/
theorem add_item_merge_preserves_snapshot
    (db : DB) (u pid fid : String) (now : Nat) (q : ℤ) (prod : Product)
    (c : Cart) (pre post : List CartItem) (it : CartItem)
    (hp : findOne db.products (fun p => p.id == pid) = some prod)
    (hc : findOne db.carts (fun c0 => c0.user_id == u) = some c)
    (hitems : c.items = pre ++ it :: post)
    (hpre : ∀ x ∈ pre, x.product_id ≠ prod.id)
    (hit : it.product_id = prod.id) :
    ∃ dbr cr merged,
      add_to_cart db u pid q fid now = .ok (dbr, cr) ∧
      cr.items = pre ++ merged :: post ∧
      merged.product_id = it.product_id ∧
      merged.product_name = it.product_name ∧
      merged.product_image = it.product_image ∧
      merged.price = it.price ∧
      merged.quantity = it.quantity + q ∧
      cr.total = computeTotal (pre ++ merged :: post) ∧
      (∀ (db2 : DB) (prod2 : Product),
        findOne db2.products (fun p => p.id == pid) = some prod2 →
        prod2.id = prod.id →
        db2.carts = db.carts →
        ∃ dbr2 cr2, add_to_cart db2 u pid q fid now = .ok (dbr2, cr2) ∧
          cr2.items = cr.items) := by
  have h := add_to_cart_merge db u pid fid now q prod c pre post it
    hp hc hitems hpre hit
  refine ⟨_, _, { it with quantity := it.quantity + q }, h, rfl, rfl, rfl,
    rfl, rfl, rfl, rfl, ?_⟩
  intro db2 prod2 hp2 hid2 hcarts2
  have h2 := add_to_cart_merge db2 u pid fid now q prod2 c pre post it
    hp2 (by rw [hcarts2]; exact hc) hitems
    (by rw [hid2]; exact hpre) (by rw [hid2]; exact hit)
  exact ⟨_, _, h2, rfl⟩

/-- Concrete cart for witnesses: user "u" already holds 2 units of "p1". -/
def cartU : Cart :=
  ⟨"c1", "u", [⟨"p1", "Sofa Booth", "sofa.jpg", 100, 2⟩], 200, 5⟩

/-- Concrete witness database whose single cart is `cartU`. -/
def dbSeedCart : DB := ⟨[], [catSofas], [prodSofa], [cartU]⟩

/-- Witness for C9 at the concrete seed database with an existing cart. -/
theorem add_item_merge_preserves_snapshot_witness :
    ∃ dbr cr merged,
      add_to_cart dbSeedCart "u" "p1" 3 "f1" 7 = .ok (dbr, cr) ∧
      cr.items = [] ++ merged ::
        [] ∧
      merged.product_id = (⟨"p1", "Sofa Booth", "sofa.jpg", 100, 2⟩ :
        CartItem).product_id ∧
      merged.product_name = (⟨"p1", "Sofa Booth", "sofa.jpg", 100, 2⟩ :
        CartItem).product_name ∧
      merged.product_image = (⟨"p1", "Sofa Booth", "sofa.jpg", 100, 2⟩ :
        CartItem).product_image ∧
      merged.price = (⟨"p1", "Sofa Booth", "sofa.jpg", 100, 2⟩ :
        CartItem).price ∧
      merged.quantity = (⟨"p1", "Sofa Booth", "sofa.jpg", 100, 2⟩ :
        CartItem).quantity + 3 ∧
      cr.total = computeTotal ([] ++ merged :: []) ∧
      (∀ (db2 : DB) (prod2 : Product),
        findOne db2.products (fun p => p.id == "p1") = some prod2 →
        prod2.id = prodSofa.id →
        db2.carts = dbSeedCart.carts →
        ∃ dbr2 cr2, add_to_cart db2 "u" "p1" 3 "f1" 7 = .ok (dbr2, cr2) ∧
          cr2.items = cr.items) :=
  add_item_merge_preserves_snapshot dbSeedCart "u" "p1" "f1" 7 3 prodSofa
    cartU [] [] ⟨"p1", "Sofa Booth", "sofa.jpg", 100, 2⟩
    (by decide) (by decide) rfl (by simp) rfl

/-- A cart is consistent when its stored total is the recomputed sum. -/
def cartConsistent (c : Cart) : Prop := c.total = computeTotal c.items

/-- Shape of any successful `add_to_cart`: the returned cart's total is the
recomputed sum, the carts collection is updated by the upserting replace, and
no other collection changes. -/
theorem add_to_cart_ok_shape (db : DB) (u pid : String) (q : ℤ)
    (fid : String) (now : Nat) (db2 : DB) (c : Cart)
    (h : add_to_cart db u pid q fid now = .ok (db2, c)) :
    c.total = computeTotal c.items ∧
    db2.carts = replaceOne db.carts (fun c0 => c0.user_id == u) c true ∧
    db2.users = db.users ∧ db2.products = db.products ∧
    db2.categories = db.categories := by
  unfold add_to_cart at h
  cases hp : findOne db.products (fun p => p.id == pid) with
  | none => rw [hp] at h; exact absurd h (by simp)
  | some prod =>
    rw [hp] at h
    simp only [Except.ok.injEq, Prod.mk.injEq] at h
    obtain ⟨hdb, hcc⟩ := h
    subst hdb
    subst hcc
    exact ⟨rfl, rfl, rfl, rfl, rfl⟩

/-- Shape of any successful `remove_from_cart`: the returned cart's total is
the recomputed sum, the carts collection is updated by the replace, and no
other collection changes. -/
theorem remove_from_cart_ok_shape (db : DB) (u pid : String) (now : Nat)
    (db2 : DB) (c : Cart)
    (h : remove_from_cart db u pid now = .ok (db2, c)) :
    c.total = computeTotal c.items ∧
    db2.carts = replaceOne db.carts (fun c0 => c0.user_id == u) c false ∧
    db2.users = db.users ∧ db2.products = db.products ∧
    db2.categories = db.categories := by
  unfold remove_from_cart at h
  cases hc : findOne db.carts (fun c0 => c0.user_id == u) with
  | none => rw [hc] at h; exact absurd h (by simp)
  | some c0 =>
    rw [hc] at h
    simp only [Except.ok.injEq, Prod.mk.injEq] at h
    obtain ⟨hdb, hcc⟩ := h
    subst hdb
    subst hcc
    exact ⟨rfl, rfl, rfl, rfl, rfl⟩

/-- Shape of any successful `register`: the carts collection is untouched. -/
theorem register_ok_carts (db : DB) (rd : UserCreate) (fid hash : String)
    (now : Nat) (db2 : DB) (usr : User)
    (h : register db rd fid hash now = .ok (db2, usr)) :
    db2.carts = db.carts := by
  unfold register at h
  cases he : findOne db.users (fun u => u.email == rd.email) with
  | none =>
    rw [he] at h
    simp only [Except.ok.injEq, Prod.mk.injEq] at h
    rw [← h.1]
  | some _ => rw [he] at h; exact absurd h (by simp)

/-- Shape of any successful `create_product`: the carts collection is
untouched. -/
theorem create_product_ok_carts (db : DB) (cu : User) (pd : ProductCreate)
    (fid : String) (now : Nat) (db2 : DB) (pr : Product)
    (h : create_product db cu pd fid now = .ok (db2, pr)) :
    db2.carts = db.carts := by
  unfold create_product at h
  cases ha : cu.is_admin with
  | false => simp [ha] at h
  | true =>
    simp only [ha, Bool.not_true, Bool.false_eq_true, if_false] at h
    cases hcat : findOne db.categories
        (fun c => c.id == pd.category_id) with
    | none => rw [hcat] at h; exact absurd h (by simp)
    | some cat =>
      rw [hcat] at h
      simp only [Except.ok.injEq, Prod.mk.injEq] at h
      rw [← h.1]

/-- One request-handler execution, as a transition on the database. -/
inductive Step : DB → DB → Prop where
  | get_cart_step (db : DB) (u fid : String) (now : Nat) :
      Step db (get_cart db u fid now).1
  | add_step (db db2 : DB) (u pid : String) (q : ℤ) (fid : String)
      (now : Nat) (c : Cart) :
      add_to_cart db u pid q fid now = .ok (db2, c) → Step db db2
  | remove_step (db db2 : DB) (u pid : String) (now : Nat) (c : Cart) :
      remove_from_cart db u pid now = .ok (db2, c) → Step db db2
  | register_step (db db2 : DB) (rd : UserCreate) (fid hash : String)
      (now : Nat) (usr : User) :
      register db rd fid hash now = .ok (db2, usr) → Step db db2
  | create_product_step (db db2 : DB) (cu : User) (pd : ProductCreate)
      (fid : String) (now : Nat) (pr : Product) :
      create_product db cu pd fid now = .ok (db2, pr) → Step db db2

/-- Databases reachable from any state with no carts yet (the bootstrap seeds
categories, products, reviews and the admin user, never carts) by any
sequence of handler executions. -/
inductive ReachableDB : DB → Prop where
  | init (db : DB) : db.carts = [] → ReachableDB db
  | step (db db2 : DB) : ReachableDB db → Step db db2 → ReachableDB db2

/-- Every cart persisted in a reachable database is consistent. -/
theorem reachable_carts_consistent (db : DB) (h : ReachableDB db) :
    ∀ c ∈ db.carts, cartConsistent c := by
  induction h with
  | init db hdb => intro c hcmem; rw [hdb] at hcmem; exact absurd hcmem (by simp)
  | step db db2 _hre hstep ih =>
    intro c hcmem
    cases hstep with
    | get_cart_step u fid now =>
      unfold get_cart at hcmem
      cases hfind : findOne db.carts (fun c0 => c0.user_id == u) with
      | none =>
        rw [hfind] at hcmem
        simp only [insertOne] at hcmem
        rcases List.mem_append.mp hcmem with hmem | hmem
        · exact ih c hmem
        · have : c = ⟨fid, u, [], 0, now⟩ := by simpa using hmem
          rw [this]
          rfl
      | some c0 =>
        rw [hfind] at hcmem
        exact ih c hcmem
    | add_step db2 u pid q fid now cr hok =>
      obtain ⟨hcr, hcarts, -, -, -⟩ :=
        add_to_cart_ok_shape db u pid q fid now db2 cr hok
      rw [hcarts] at hcmem
      rcases mem_replaceOne db.carts _ cr c true hcmem with hmem | rfl
      · exact ih c hmem
      · exact hcr
    | remove_step db2 u pid now cr hok =>
      obtain ⟨hcr, hcarts, -, -, -⟩ :=
        remove_from_cart_ok_shape db u pid now db2 cr hok
      rw [hcarts] at hcmem
      rcases mem_replaceOne db.carts _ cr c false hcmem with hmem | rfl
      · exact ih c hmem
      · exact hcr
    | register_step db2 rd fid hash now usr hok =>
      rw [register_ok_carts db rd fid hash now db2 usr hok] at hcmem
      exact ih c hcmem
    | create_product_step db2 cu pd fid now pr hok =>
      rw [create_product_ok_carts db cu pd fid now db2 pr hok] at hcmem
      exact ih c hcmem

/-- Claim C2: after every cart mutation (`add_to_cart`, `remove_from_cart`)
the returned and persisted cart satisfies total = Σ price × quantity, and the
invariant holds for every cart in every reachable database state. -/
theorem cart_total_invariant (db : DB) (h : ReachableDB db) :
    (∀ c ∈ db.carts, c.total = computeTotal c.items) ∧
    (∀ (db0 db1 : DB) (u pid : String) (q : ℤ) (fid : String) (now : Nat)
       (c : Cart), add_to_cart db0 u pid q fid now = .ok (db1, c) →
       c.total = computeTotal c.items) ∧
    (∀ (db0 db1 : DB) (u pid : String) (now : Nat) (c : Cart),
       remove_from_cart db0 u pid now = .ok (db1, c) →
       c.total = computeTotal c.items) := by
  refine ⟨reachable_carts_consistent db h, ?_, ?_⟩
  · intro db0 db1 u pid q fid now c hok
    exact (add_to_cart_ok_shape db0 u pid q fid now db1 c hok).1
  · intro db0 db1 u pid now c hok
    exact (remove_from_cart_ok_shape db0 u pid now db1 c hok).1

/-- Witness for C2 at the concrete seed database (reachable: no carts yet). -/
theorem cart_total_invariant_witness :
    (∀ c ∈ dbSeed.carts, c.total = computeTotal c.items) ∧
    (∀ (db0 db1 : DB) (u pid : String) (q : ℤ) (fid : String) (now : Nat)
       (c : Cart), add_to_cart db0 u pid q fid now = .ok (db1, c) →
       c.total = computeTotal c.items) ∧
    (∀ (db0 db1 : DB) (u pid : String) (now : Nat) (c : Cart),
       remove_from_cart db0 u pid now = .ok (db1, c) →
       c.total = computeTotal c.items) :=
  cart_total_invariant dbSeed (ReachableDB.init dbSeed rfl)

/-- Counterexample to C3 at a concrete state: the user has no cart, yet a
successful `add_to_cart` leaves a cart present — the upsert persist of
add_item does transition the user's cart from absent to present. -/
theorem add_item_creates_cart_counterexample :
    findOne dbSeed.carts (fun c => c.user_id == "u") = none ∧
    ∃ db1 c1, add_to_cart dbSeed "u" "p1" 1 "f1" 1 = .ok (db1, c1) ∧
      findOne db1.carts (fun c => c.user_id == "u") = some c1 :=
  ⟨rfl, _, _,
    add_to_cart_fresh dbSeed "u" "p1" "f1" 1 1 prodSofa (by decide) rfl,
    find?_eq_none_append dbSeed.carts (fun c => c.user_id == "u") _ rfl
      (by decide)⟩

/-- Claim C3 amended: an absent cart becomes present through `get_cart` and
also through `add_to_cart` (whose upsert persist creates it); only
`remove_from_cart` never creates a cart — with no cart it fails with 404. -/
theorem cart_creation_operations (db : DB) (u pid fid : String) (now : Nat)
    (q : ℤ) (prod : Product)
    (hc : findOne db.carts (fun c => c.user_id == u) = none) :
    findOne (get_cart db u fid now).1.carts (fun c => c.user_id == u) =
      some ⟨fid, u, [], 0, now⟩ ∧
    (findOne db.products (fun p => p.id == pid) = some prod →
      ∃ db1 c1, add_to_cart db u pid q fid now = .ok (db1, c1) ∧
        findOne db1.carts (fun c => c.user_id == u) = some c1) ∧
    remove_from_cart db u pid now = .error ⟨404, "Cart not found"⟩ := by
  refine ⟨?_, ?_, ?_⟩
  · unfold get_cart
    rw [hc]
    exact find?_eq_none_append db.carts (fun c => c.user_id == u) _ hc
      (by simp)
  · intro hp
    refine ⟨_, _, add_to_cart_fresh db u pid fid now q prod hp hc, ?_⟩
    exact find?_eq_none_append db.carts (fun c => c.user_id == u) _ hc
      (by simp)
  · unfold remove_from_cart
    rw [hc]

/-- Witness for the amended C3 at the concrete seed database. -/
theorem cart_creation_operations_witness :
    findOne (get_cart dbSeed "u" "f0" 1).1.carts (fun c => c.user_id == "u") =
      some ⟨"f0", "u", [], 0, 1⟩ ∧
    (findOne dbSeed.products (fun p => p.id == "p1") = some prodSofa →
      ∃ db1 c1, add_to_cart dbSeed "u" "p1" 1 "f0" 1 = .ok (db1, c1) ∧
        findOne db1.carts (fun c => c.user_id == "u") = some c1) ∧
    remove_from_cart dbSeed "u" "p1" 1 = .error ⟨404, "Cart not found"⟩ :=
  cart_creation_operations dbSeed "u" "p1" "f0" 1 1 prodSofa rfl

/-- Counterexample to C5: `add_to_cart` performs no validation of the
requested quantity, so requesting quantity 0 stores a CartItem whose
quantity is 0, not positive. -/
theorem add_item_nonpositive_quantity_counterexample :
    ∃ db1 c1, add_to_cart dbSeed "u" "p1" 0 "f1" 1 = .ok (db1, c1) ∧
      ¬ (∀ it ∈ c1.items, 0 < it.quantity) :=
  ⟨_, _, add_to_cart_fresh dbSeed "u" "p1" "f1" 1 0 prodSofa (by decide) rfl,
    by decide⟩

/-- Merging a positive-quantity item into an all-positive item list keeps
every quantity positive. -/
theorem mergeItem_pos (items : List CartItem) (ci : CartItem)
    (h : ∀ it ∈ items, 0 < it.quantity) (hci : 0 < ci.quantity) :
    ∀ it ∈ mergeItem items ci, 0 < it.quantity := by
  induction items with
  | nil =>
    intro it hit
    simp only [mergeItem, List.mem_singleton] at hit
    rw [hit]; exact hci
  | cons x rest ih =>
    intro it hit
    simp only [mergeItem] at hit
    cases hx : x.product_id == ci.product_id with
    | true =>
      rw [hx] at hit
      simp only [if_pos] at hit
      rcases List.mem_cons.mp hit with rfl | hmem
      · exact add_pos (h x (List.mem_cons_self _ _)) hci
      · exact h it (List.mem_cons_of_mem _ hmem)
    | false =>
      rw [hx] at hit
      simp only [Bool.false_eq_true, if_false] at hit
      rcases List.mem_cons.mp hit with rfl | hmem
      · exact h it (List.mem_cons_self _ _)
      · exact ih (fun y hy => h y (List.mem_cons_of_mem _ hy)) it hmem

/-- Claim C5 amended: provided the requested quantity is positive and every
item already persisted has positive quantity, a successful `add_to_cart`
yields a returned cart and a database in which every quantity is positive;
without that proviso the requested quantity (even 0 or negative) is stored
as-is. -/
theorem add_item_positive_quantity_amended (db : DB) (u pid fid : String)
    (now : Nat) (q : ℤ) (db2 : DB) (cr : Cart)
    (hq : 0 < q)
    (hpos : ∀ c ∈ db.carts, ∀ it ∈ c.items, 0 < it.quantity)
    (hok : add_to_cart db u pid q fid now = .ok (db2, cr)) :
    (∀ it ∈ cr.items, 0 < it.quantity) ∧
    (∀ c ∈ db2.carts, ∀ it ∈ c.items, 0 < it.quantity) := by
  unfold add_to_cart at hok
  cases hp : findOne db.products (fun p => p.id == pid) with
  | none => rw [hp] at hok; exact absurd hok (by simp)
  | some prod =>
    rw [hp] at hok
    simp only [Except.ok.injEq, Prod.mk.injEq] at hok
    obtain ⟨hdb2, hcr⟩ := hok
    have hcrpos : ∀ it ∈ cr.items, 0 < it.quantity := by
      rw [← hcr]
      apply mergeItem_pos
      · cases hc : findOne db.carts (fun c0 => c0.user_id == u) with
        | none => simp [hc]
        | some c0 =>
          simp only [hc]
          exact hpos c0 (List.mem_of_find?_eq_some hc)
      · exact hq
    refine ⟨hcrpos, ?_⟩
    intro c hcmem
    rw [← hdb2] at hcmem
    rcases mem_replaceOne db.carts _ _ c true hcmem with hmem | hceq
    · exact hpos c hmem
    · intro it hit
      rw [hceq, hcr] at hit
      exact hcrpos it hit

/-- Witness for the amended C5 at the concrete seed database. -/
theorem add_item_positive_quantity_amended_witness :
    ∃ db2 cr, add_to_cart dbSeed "u" "p1" 1 "f1" 1 = .ok (db2, cr) ∧
      (∀ it ∈ cr.items, 0 < it.quantity) ∧
      (∀ c ∈ db2.carts, ∀ it ∈ c.items, 0 < it.quantity) := by
  have h := add_to_cart_fresh dbSeed "u" "p1" "f1" 1 1 prodSofa (by decide) rfl
  exact ⟨_, _, h, add_item_positive_quantity_amended dbSeed "u" "p1" "f1" 1 1
    _ _ (by decide) (by intro c hc; exact absurd hc (List.not_mem_nil c)) h⟩

/-- A token whose decoding raises PyJWTError (malformed payload). -/
def tokMalformed : Token := ⟨true, true, false, none⟩

/-- A well-signed, unexpired token whose subject is not in the directory. -/
def tokUnknownSub : Token := ⟨false, true, false, some "ghost"⟩

/-- Counterexample to C4: two failing resolutions are distinguishable — a
malformed token fails with detail "Invalid authentication credentials" while
a valid token whose subject is unknown fails with detail "User not found". -/
theorem auth_failure_distinguishable_counterexample :
    get_current_user dbSeed tokMalformed =
      .error ⟨401, "Invalid authentication credentials"⟩ ∧
    get_current_user dbSeed tokUnknownSub = .error ⟨401, "User not found"⟩ ∧
    ("Invalid authentication credentials" : String) ≠ "User not found" :=
  ⟨rfl, rfl, by decide⟩

/-- Claim C4 amended: every resolution failure carries the same status 401,
and every token-level failure (malformed, bad signature, expired, missing
sub) the same uniform detail; but an unknown subject is answered with the
distinct detail "User not found", so that case is distinguishable. -/
theorem auth_failure_uniform_status (db : DB) (tok : Token) :
    (∀ e : HTTPError, get_current_user db tok = .error e → e.status = 401) ∧
    (jwtDecode tok = none ∨ jwtDecode tok = some none →
      get_current_user db tok =
        .error ⟨401, "Invalid authentication credentials"⟩) ∧
    (∀ uid : String, jwtDecode tok = some (some uid) →
      findOne db.users (fun u0 => u0.id == uid) = none →
      get_current_user db tok = .error ⟨401, "User not found"⟩) := by
  refine ⟨?_, ?_, ?_⟩
  · intro e he
    unfold get_current_user at he
    cases hd : jwtDecode tok with
    | none =>
      rw [hd] at he
      simp only [Except.error.injEq] at he
      rw [← he]
    | some payloadSub =>
      rw [hd] at he
      cases payloadSub with
      | none =>
        simp only [Except.error.injEq] at he
        rw [← he]
      | some uid =>
        cases hu : findOne db.users (fun u0 => u0.id == uid) with
        | none =>
          simp only [hu, Except.error.injEq] at he
          rw [← he]
        | some u =>
          simp only [hu] at he
          exact absurd he (by simp)
  · intro hfail
    unfold get_current_user
    rcases hfail with hd | hd <;> rw [hd]
  · intro uid hd hu
    unfold get_current_user
    rw [hd]
    simp only [hu]

/-- Witness for the amended C4 at concrete tokens and the seed database. -/
theorem auth_failure_uniform_status_witness :
    get_current_user dbSeed tokMalformed =
      .error ⟨401, "Invalid authentication credentials"⟩ ∧
    get_current_user dbSeed tokUnknownSub =
      .error ⟨401, "User not found"⟩ ∧
    (∀ e : HTTPError, get_current_user dbSeed tokUnknownSub = .error e →
      e.status = 401) := by
  refine ⟨?_, ?_, ?_⟩
  · exact (auth_failure_uniform_status dbSeed tokMalformed).2.1 (Or.inl rfl)
  · exact (auth_failure_uniform_status dbSeed tokUnknownSub).2.2 "ghost"
      rfl rfl
  · exact (auth_failure_uniform_status dbSeed tokUnknownSub).1

/-- Claim C6: `remove_from_cart` fails with 404 "Cart not found" when the
user has no cart; when a cart exists it filters out every item with the
given product_id, recomputes the total, stamps the timestamp, persists via
replace, and returns the updated cart; a cart holding exactly one item for
that product becomes an empty-items cart with total 0. -/
theorem remove_item_spec (db : DB) (u pid : String) (now : Nat) :
    (findOne db.carts (fun c0 => c0.user_id == u) = none →
      remove_from_cart db u pid now = .error ⟨404, "Cart not found"⟩) ∧
    (∀ c : Cart, findOne db.carts (fun c0 => c0.user_id == u) = some c →
      ∃ db2 cr, remove_from_cart db u pid now = .ok (db2, cr) ∧
        cr.items = c.items.filter (fun it => it.product_id != pid) ∧
        cr.total = computeTotal cr.items ∧
        cr.updated_at = now ∧ cr.id = c.id ∧ cr.user_id = c.user_id ∧
        db2.carts = replaceOne db.carts (fun c0 => c0.user_id == u) cr
          false ∧
        (∀ it0 : CartItem, c.items = [it0] → it0.product_id = pid →
          cr.items = [] ∧ cr.total = 0)) := by
  constructor
  · intro hc
    unfold remove_from_cart
    rw [hc]
  · intro c hc
    refine ⟨DB.mk db.users db.categories db.products
        (replaceOne db.carts (fun c0 => c0.user_id == u)
          (Cart.mk c.id c.user_id
            (c.items.filter (fun it => it.product_id != pid))
            (computeTotal (c.items.filter (fun it => it.product_id != pid)))
            now) false),
      Cart.mk c.id c.user_id
        (c.items.filter (fun it => it.product_id != pid))
        (computeTotal (c.items.filter (fun it => it.product_id != pid)))
        now, ?_, rfl, rfl, rfl, rfl, rfl, rfl, ?_⟩
    · unfold remove_from_cart
      rw [hc]
    · intro it0 hone hpid0
      have hnil : c.items.filter (fun it => it.product_id != pid) = [] := by
        rw [hone]
        simp [hpid0]
      exact ⟨hnil, by rw [hnil]; rfl⟩

/-- Witness for C6: removing the only item of a concrete one-item cart, and
the 404 on a concrete database with no carts. -/
theorem remove_item_spec_witness :
    remove_from_cart dbSeed "u" "p1" 9 = .error ⟨404, "Cart not found"⟩ ∧
    ∃ db2 cr, remove_from_cart dbSeedCart "u" "p1" 9 = .ok (db2, cr) ∧
      cr.items = [] ∧ cr.total = 0 := by
  constructor
  · exact (remove_item_spec dbSeed "u" "p1" 9).1 rfl
  · obtain ⟨db2, cr, hok, hitems, htot, hup, hid, huid, hcarts, hone⟩ :=
      (remove_item_spec dbSeedCart "u" "p1" 9).2 cartU (by decide)
    obtain ⟨hnil, h0⟩ := hone ⟨"p1", "Sofa Booth", "sofa.jpg", 100, 2⟩ rfl rfl
    exact ⟨db2, cr, hok, hnil, h0⟩

/-- Claim C10: `remove_from_cart` raises an error iff the user has no cart;
on a cart with no item for the product the call succeeds, returning the cart
with its items unchanged and (the cart being consistent, which every
reachable cart is) its total unchanged — only the timestamp is refreshed. -/
theorem remove_item_no_match (db : DB) (u pid : String) (now : Nat) :
    ((∃ e, remove_from_cart db u pid now = .error e) ↔
      findOne db.carts (fun c0 => c0.user_id == u) = none) ∧
    (∀ c : Cart, findOne db.carts (fun c0 => c0.user_id == u) = some c →
      (∀ it ∈ c.items, it.product_id ≠ pid) →
      cartConsistent c →
      ∃ db2 cr, remove_from_cart db u pid now = .ok (db2, cr) ∧
        cr.items = c.items ∧ cr.total = c.total ∧ cr.updated_at = now ∧
        cr.id = c.id ∧ cr.user_id = c.user_id) := by
  constructor
  · constructor
    · rintro ⟨e, he⟩
      cases hc : findOne db.carts (fun c0 => c0.user_id == u) with
      | none => rfl
      | some c =>
        unfold remove_from_cart at he
        rw [hc] at he
        exact absurd he (by simp)
    · intro hc
      refine ⟨⟨404, "Cart not found"⟩, ?_⟩
      unfold remove_from_cart
      rw [hc]
  · intro c hc hno hcons
    have hfilter : c.items.filter (fun it => it.product_id != pid) =
        c.items := by
      apply List.filter_eq_self.mpr
      intro it hit
      simpa using hno it hit
    refine ⟨DB.mk db.users db.categories db.products
        (replaceOne db.carts (fun c0 => c0.user_id == u)
          (Cart.mk c.id c.user_id
            (c.items.filter (fun it => it.product_id != pid))
            (computeTotal (c.items.filter (fun it => it.product_id != pid)))
            now) false),
      Cart.mk c.id c.user_id
        (c.items.filter (fun it => it.product_id != pid))
        (computeTotal (c.items.filter (fun it => it.product_id != pid)))
        now, ?_, hfilter, ?_, rfl, rfl, rfl⟩
    · unfold remove_from_cart
      rw [hc]
    · show computeTotal (c.items.filter (fun it => it.product_id != pid)) =
        c.total
      rw [hfilter]
      exact hcons.symm

/-- Witness for C10: removing a product absent from a concrete cart leaves
items and total unchanged. -/
theorem remove_item_no_match_witness :
    ∃ db2 cr, remove_from_cart dbSeedCart "u" "p2" 9 = .ok (db2, cr) ∧
      cr.items = cartU.items ∧ cr.total = cartU.total ∧
      cr.updated_at = 9 ∧ cr.id = cartU.id ∧ cr.user_id = cartU.user_id :=
  (remove_item_no_match dbSeedCart "u" "p2" 9).2 cartU (by decide)
    (by decide) (by norm_num [cartConsistent, cartU, computeTotal])

/-- Claim C7: `register` fails with 400 "Email already registered" whenever a
user with the same stored email exists; otherwise it persists the user with
the hashed password under the fresh id and returns the User (no password
field); after a committed first registration, a second one with the same
email always fails. -/
theorem register_email_conflict (db : DB) (rd : UserCreate)
    (fid hash : String) (now : Nat) :
    ((∃ u0, findOne db.users (fun u => u.email == rd.email) = some u0) →
      register db rd fid hash now =
        .error ⟨400, "Email already registered"⟩) ∧
    (findOne db.users (fun u => u.email == rd.email) = none →
      ∃ db2 usr, register db rd fid hash now = .ok (db2, usr) ∧
        usr = ⟨fid, rd.name, rd.email, rd.phone, now, false⟩ ∧
        db2.users = db.users ++
          [⟨fid, rd.name, rd.email, rd.phone, now, false, hash⟩] ∧
        (∀ (rd2 : UserCreate) (fid2 hash2 : String) (now2 : Nat),
          rd2.email = rd.email →
          register db2 rd2 fid2 hash2 now2 =
            .error ⟨400, "Email already registered"⟩)) := by
  constructor
  · rintro ⟨u0, hu0⟩
    unfold register
    rw [hu0]
  · intro hnone
    refine ⟨DB.mk (db.users ++
        [⟨fid, rd.name, rd.email, rd.phone, now, false, hash⟩])
        db.categories db.products db.carts,
      ⟨fid, rd.name, rd.email, rd.phone, now, false⟩, ?_, rfl, rfl, ?_⟩
    · unfold register
      rw [hnone]
      rfl
    · intro rd2 fid2 hash2 now2 hemail
      have hfind : findOne (db.users ++
          [(⟨fid, rd.name, rd.email, rd.phone, now, false, hash⟩ :
            StoredUser)]) (fun u => u.email == rd2.email) =
          some ⟨fid, rd.name, rd.email, rd.phone, now, false, hash⟩ := by
        rw [hemail]
        exact find?_eq_none_append db.users
          (fun u => u.email == rd.email) _ hnone (by simp)
      unfold register
      rw [hfind]

/-- Witness for C7: a fresh registration on the empty directory succeeds and
an immediate second registration with the same email fails. -/
theorem register_email_conflict_witness :
    ∃ db2 usr,
      register dbSeed ⟨"Ana", "ana@x.com", "pw", "21"⟩ "id1" "h1" 3 =
        .ok (db2, usr) ∧
      usr = ⟨"id1", "Ana", "ana@x.com", "21", 3, false⟩ ∧
      register db2 ⟨"Bia", "ana@x.com", "pw2", "22"⟩ "id2" "h2" 4 =
        .error ⟨400, "Email already registered"⟩ := by
  obtain ⟨db2, usr, hok, husr, husers, hsecond⟩ :=
    (register_email_conflict dbSeed ⟨"Ana", "ana@x.com", "pw", "21"⟩
      "id1" "h1" 3).2 rfl
  exact ⟨db2, usr, hok, husr,
    hsecond ⟨"Bia", "ana@x.com", "pw2", "22"⟩ "id2" "h2" 4 rfl⟩

/-- Claim C8: `create_product` fails with 400 "Category not found" when the
category_id does not resolve; when it does resolve, the created product's
category_name equals that category's name at creation time, and a later
direct rename of the category leaves the stored category_name unchanged
(snapshot, not a live join). -/
theorem create_product_category_snapshot (db : DB) (cu : User)
    (pd : ProductCreate) (fid : String) (now : Nat)
    (hadmin : cu.is_admin = true) :
    (findOne db.categories (fun c => c.id == pd.category_id) = none →
      create_product db cu pd fid now = .error ⟨400, "Category not found"⟩) ∧
    (∀ cat : Category,
      findOne db.categories (fun c => c.id == pd.category_id) = some cat →
      (∀ p ∈ db.products, p.id ≠ fid) →
      ∃ db2 pr, create_product db cu pd fid now = .ok (db2, pr) ∧
        pr.category_name = cat.name ∧ pr.id = fid ∧
        db2.products = db.products ++ [pr] ∧
        (∀ newName : String,
          (renameCategory db2 pd.category_id newName).products =
            db2.products ∧
          ∃ p2, findOne (renameCategory db2 pd.category_id newName).products
              (fun p => p.id == fid) = some p2 ∧
            p2.category_name = cat.name)) := by
  constructor
  · intro hnone
    unfold create_product
    rw [hadmin, hnone]
    rfl
  · intro cat hcat hfresh
    refine ⟨DB.mk db.users db.categories
        (db.products ++ [⟨fid, pd.name, pd.description, pd.price,
          pd.category_id, cat.name, pd.image_url, pd.images,
          pd.specifications, pd.in_stock, now⟩])
        db.carts,
      ⟨fid, pd.name, pd.description, pd.price, pd.category_id, cat.name,
        pd.image_url, pd.images, pd.specifications, pd.in_stock, now⟩,
      ?_, rfl, rfl, rfl, ?_⟩
    · unfold create_product
      rw [hadmin, hcat]
      rfl
    · intro newName
      refine ⟨rfl, ⟨fid, pd.name, pd.description, pd.price, pd.category_id,
        cat.name, pd.image_url, pd.images, pd.specifications, pd.in_stock,
        now⟩, ?_, rfl⟩
      show findOne (db.products ++ [_]) (fun p => p.id == fid) = _
      apply find?_eq_none_append db.products (fun p => p.id == fid)
      · rw [List.find?_eq_none]
        intro p hp
        simpa using hfresh p hp
      · simp

/-- Witness for C8: creating a product in the concrete category "cat1"
snapshots the name "Sofas", surviving a later rename of the category. -/
theorem create_product_category_snapshot_witness :
    ∃ db2 pr,
      create_product dbSeed ⟨"adm", "Admin", "ad@x.com", "21", 0, true⟩
        ⟨"Chair", "d", 50, "cat1", "img", [], [], true⟩ "newp" 5 =
        .ok (db2, pr) ∧
      pr.category_name = catSofas.name ∧ pr.id = "newp" ∧
      db2.products = dbSeed.products ++ [pr] ∧
      (∀ newName : String,
        (renameCategory db2 "cat1" newName).products = db2.products ∧
        ∃ p2, findOne (renameCategory db2 "cat1" newName).products
            (fun p => p.id == "newp") = some p2 ∧
          p2.category_name = catSofas.name) := by
  obtain ⟨db2, pr, hok, hname, hid, hprods, hren⟩ :=
    (create_product_category_snapshot dbSeed
      ⟨"adm", "Admin", "ad@x.com", "21", 0, true⟩
      ⟨"Chair", "d", 50, "cat1", "img", [], [], true⟩ "newp" 5 rfl).2
      catSofas (by decide) (by decide)
  exact ⟨db2, pr, hok, hname, hid, hprods, hren⟩
